import Mathlib

/-!
Verification of the AsciiTreeGenerator core (lib.py / ascii_tree.py) via a
shallow embedding.  Python floats are modelled as rationals (ℚ); Python
runtime exceptions are modelled with an explicit error type and `Except`.
The transcendental primitives `math.cos`, `math.sin` and `math.pi` are
modelled as parameters (a `Trig` structure): no claim below depends on
their numeric values, only on how the code combines them.
-/

namespace AsciiTreeGen

/-- Runtime errors the embedded Python code can raise.  `configurationError`
is never raised by the source; it is included so that the spec's expectation
of a fail-fast `ConfigurationError` (§7) is statable. -/
inductive PyErr where
  | zeroDivision
  | valueError
  | typeError
  | unboundLocal
  | indexError
  | configurationError
  deriving DecidableEq, Repr

instance {ε α : Type} [DecidableEq ε] [DecidableEq α] : DecidableEq (Except ε α) :=
  fun x y =>
    match x, y with
    | .ok a, .ok b =>
      if h : a = b then .isTrue (by rw [h]) else .isFalse (by simp [h])
    | .error e, .error f =>
      if h : e = f then .isTrue (by rw [h]) else .isFalse (by simp [h])
    | .ok _, .error _ => .isFalse (by simp)
    | .error _, .ok _ => .isFalse (by simp)

/-- Python division: raises ZeroDivisionError when the denominator is zero. -/
def pyDiv (a b : ℚ) : Except PyErr ℚ :=
  if b = 0 then .error .zeroDivision else .ok (a / b)

/-- The `Point` dataclass: a pair of float coordinates. -/
structure Point where
  x : ℚ
  y : ℚ
  deriving DecidableEq, Repr

instance : Inhabited Point := ⟨⟨0, 0⟩⟩

/-- Python list indexing with negative-index wraparound, as used by
`polygon[i]` for `i` ranging from -1.  All accesses made by the source are
in range whenever the list is nonempty, so the default value is never
produced on those paths. -/
def pyGet (l : List Point) (i : Int) : Point :=
  if i < 0 then l.getD ((l.length : Int) + i).toNat default
  else l.getD i.toNat default

/-- One iteration of the edge loop of `Point.is_within_polygon`: for edge
index `i`, fetch `p1 = polygon[i]` and `p2 = polygon[i+1]`; if the query's
y is outside both half-open y-spans, `continue`; otherwise interpolate the
crossing x (Python `/`, so a ZeroDivisionError if `p2.y - p1.y` is zero)
and toggle `inside` when the crossing lies left of the query x. -/
def iwpStep (self : Point) (polygon : List Point) (inside : Bool) (i : Int) :
    Except PyErr Bool :=
  let p1 := pyGet polygon i
  let p2 := pyGet polygon (i + 1)
  if (p1.y ≤ self.y ∧ self.y < p2.y) ∨ (p2.y ≤ self.y ∧ self.y < p1.y) then
    match pyDiv ((p2.x - p1.x) * (self.y - p1.y)) (p2.y - p1.y) with
    | .error e => .error e
    | .ok q => .ok (if q + p1.x < self.x then !inside else inside)
  else
    .ok inside

/-- The edge loop of `Point.is_within_polygon`, run sequentially over the
remaining edge indices; the first exception aborts the loop. -/
def iwpLoop (self : Point) (polygon : List Point) :
    List Int → Bool → Except PyErr Bool
  | [], inside => .ok inside
  | i :: rest, inside =>
    match iwpStep self polygon inside i with
    | .error e => .error e
    | .ok b => iwpLoop self polygon rest b

/-- `Point.is_within_polygon`: ray-casting parity test.  The source loops
`for i in range(-1, len(polygon) - 1)`, i.e. over the edge indices
`-1, 0, …, len - 2`, starting from `inside = False`. -/
def isWithinPolygon (self : Point) (polygon : List Point) : Except PyErr Bool :=
  iwpLoop self polygon ((List.range polygon.length).map fun k => (k : Int) - 1)
    false

theorem iwpStep_isOk (self : Point) (polygon : List Point) (inside : Bool)
    (i : Int) : ∃ b, iwpStep self polygon inside i = .ok b := by
  simp only [iwpStep]
  split
  case isTrue h =>
    have hne : (pyGet polygon (i + 1)).y - (pyGet polygon i).y ≠ 0 := by
      rcases h with ⟨h1, h2⟩ | ⟨h1, h2⟩
      · exact sub_ne_zero.mpr (ne_of_gt (lt_of_le_of_lt h1 h2))
      · exact sub_ne_zero.mpr (ne_of_lt (lt_of_le_of_lt h1 h2))
    simp only [pyDiv, if_neg hne]
    exact ⟨_, rfl⟩
  case isFalse _ => exact ⟨inside, rfl⟩

theorem iwpLoop_isOk (self : Point) (polygon : List Point) :
    ∀ (l : List Int) (inside : Bool),
      ∃ b, iwpLoop self polygon l inside = .ok b := by
  intro l
  induction l with
  | nil => intro inside; exact ⟨inside, rfl⟩
  | cons i t ih =>
    intro inside
    obtain ⟨b, hb⟩ := iwpStep_isOk self polygon inside i
    obtain ⟨b2, hb2⟩ := ih b
    exact ⟨b2, by rw [iwpLoop, hb]; exact hb2⟩

theorem isWithinPolygon_isOk (self : Point) (polygon : List Point) :
    ∃ b, isWithinPolygon self polygon = .ok b :=
  iwpLoop_isOk self polygon _ false

/-- C1 (amended): for every query point and every polygon — in particular
any polygon containing a horizontal edge (`p1.y == p2.y`) — evaluating
`is_within_polygon` completes without a division by zero: a horizontal edge
can never satisfy the half-open y-range check
`p1.y <= y < p2.y or p2.y <= y < p1.y`, so it is skipped before the
interpolation is evaluated. -/
theorem horizontal_edges_never_divide_by_zero (self : Point)
    (polygon : List Point) : ∃ b, isWithinPolygon self polygon = .ok b :=
  isWithinPolygon_isOk self polygon

/-- C1 counterexample: the polygon `[(0,0), (1,0), (1,1)]` has the
horizontal edge `(0,0)–(1,0)` (two consecutive vertices with equal y), yet
`is_within_polygon` at the query point `(1/2, 1/2)` evaluates to a normal
boolean result, not a ZeroDivisionError. -/
theorem horizontal_edge_polygon_evaluates_cex :
    (Point.mk 0 0).y = (Point.mk 1 0).y ∧
      isWithinPolygon ⟨1/2, 1/2⟩ [⟨0, 0⟩, ⟨1, 0⟩, ⟨1, 1⟩] = .ok false := by
  refine ⟨rfl, ?_⟩
  have hidx : ((List.range ([(⟨0, 0⟩ : Point), ⟨1, 0⟩, ⟨1, 1⟩].length)).map
      fun k => (k : Int) - 1) = [-1, 0, 1] := by decide
  have hm1 : pyGet [⟨0, 0⟩, ⟨1, 0⟩, ⟨1, 1⟩] (-1) = (⟨1, 1⟩ : Point) := rfl
  have h0 : pyGet [⟨0, 0⟩, ⟨1, 0⟩, ⟨1, 1⟩] 0 = (⟨0, 0⟩ : Point) := rfl
  have h1 : pyGet [⟨0, 0⟩, ⟨1, 0⟩, ⟨1, 1⟩] 1 = (⟨1, 0⟩ : Point) := rfl
  have h2 : pyGet [⟨0, 0⟩, ⟨1, 0⟩, ⟨1, 1⟩] 2 = (⟨1, 1⟩ : Point) := rfl
  rw [isWithinPolygon, hidx]
  norm_num [iwpLoop, iwpStep, pyDiv, hm1, h0, h1, h2]

/-- C10: on the empty polygon the edge loop `range(-1, -1)` is empty, so
`is_within_polygon` returns the initial `inside = False` verdict without
error, for every query point. -/
theorem empty_polygon_outside_ok (self : Point) :
    isWithinPolygon self [] = .ok false := rfl

/-- The trigonometric primitives from Python's `math` module (`cos`, `sin`,
`pi`).  They are transcendental, so they are modelled as arbitrary rational
parameters; no claim below depends on their numeric values. -/
structure Trig where
  cos : ℚ → ℚ
  sin : ℚ → ℚ
  pi : ℚ

/-- `Point.move`: the point moved by distance `d` at angle `alpha`,
`(x + d*cos(alpha), y + d*sin(alpha))`. -/
def Point.move (T : Trig) (p : Point) (d alpha : ℚ) : Point :=
  ⟨p.x + d * T.cos alpha, p.y + d * T.sin alpha⟩

/-- The `Node` dataclass: a branch with a position, thickness, orientation
and an ordered list of children. -/
inductive Node where
  | mk (position : Point) (thickness : ℚ) (orientation : ℚ)
      (children : List Node)

/-- Number of nodes in a branch tree. -/
def Node.size : Node → Nat
  | .mk _ _ _ cs => 1 + ((cs.attach.map fun c => Node.size c.1).sum)
decreasing_by
  have := List.sizeOf_lt_of_mem c.2
  simp [Node.mk.sizeOf_spec]
  omega

/-- `AsciiTree.__generate_silhouette`: depth-first traversal emitting, per
node, one left point `move(position, d1, orientation + pi/2)` before the
children and one right point `move(position, d2, orientation - pi/2)` after
them, where `(d1, d2) = silhouette_points_distance(thickness)`. -/
def generateSilhouette (T : Trig) (spd : ℚ → ℚ × ℚ) : Node → List Point
  | .mk pos th ori cs =>
    Point.move T pos (spd th).1 (ori + T.pi / 2) ::
      (((cs.attach.map fun c => generateSilhouette T spd c.1).flatten)
        ++ [Point.move T pos (spd th).2 (ori - T.pi / 2)])
decreasing_by
  have := List.sizeOf_lt_of_mem c.2
  simp [Node.mk.sizeOf_spec]
  omega

theorem silhouette_length_aux (T : Trig) (spd : ℚ → ℚ × ℚ) :
    ∀ (k : Nat) (n : Node), sizeOf n ≤ k →
      (generateSilhouette T spd n).length = 2 * Node.size n := by
  intro k
  induction k with
  | zero =>
    intro n h
    cases n with
    | mk pos th ori cs =>
      rw [Node.mk.sizeOf_spec] at h
      omega
  | succ k ih =>
    intro n h
    cases n with
    | mk pos th ori cs =>
      have hcs : ∀ c ∈ cs, sizeOf c ≤ k := by
        intro c hc
        have h1 := List.sizeOf_lt_of_mem hc
        rw [Node.mk.sizeOf_spec] at h
        omega
      have hsum : ∀ cs' : List Node, (∀ c ∈ cs', sizeOf c ≤ k) →
          ((cs'.map (generateSilhouette T spd)).map List.length).sum
            = 2 * ((cs'.map Node.size).sum) := by
        intro cs'
        induction cs' with
        | nil => simp
        | cons c t iht =>
          intro hall
          have hc := ih c (hall c (by simp))
          have ht := iht fun d hd => hall d (by simp [hd])
          simp only [List.map_cons, List.sum_cons, hc, ht]
          ring
      rw [generateSilhouette, Node.size]
      rw [List.attach_map_val cs (generateSilhouette T spd),
        List.attach_map_val cs Node.size]
      simp only [List.length_cons, List.length_append, List.length_flatten,
        List.length_cons, List.length_nil]
      rw [hsum cs hcs]
      ring

/-- C2: for every shaping-function set and every branch tree, the
silhouette point sequence has length exactly twice the number of nodes in
the tree: one left point emitted before the children and one right point
emitted after them, per node. -/
theorem silhouette_length_eq_twice_node_count (T : Trig) (spd : ℚ → ℚ × ℚ)
    (n : Node) : (generateSilhouette T spd n).length = 2 * Node.size n :=
  silhouette_length_aux T spd (sizeOf n) n (le_refl _)

/-- `AsciiTree.__get_blank_layer`: a `size[0] × size[1]` grid of blanks.
Python's `range` and list repetition treat a negative dimension as zero. -/
def getBlankLayer (rows cols : Int) : List (List Char) :=
  List.replicate rows.toNat (List.replicate cols.toNat ' ')

/-- Sequential effectful map: the first exception aborts the traversal,
as in a Python loop. -/
def mapExcept {α β : Type} (f : α → Except PyErr β) :
    List α → Except PyErr (List β)
  | [] => .ok []
  | a :: rest =>
    match f a with
    | .error e => .error e
    | .ok b =>
      match mapExcept f rest with
      | .error e => .error e
      | .ok bs => .ok (b :: bs)

/-- One cell of the rasterization loop: scale the cell coordinates into
the silhouette's bounding box and run the containment test; inside cells
become `'*'`, outside cells stay blank.  The division `x / size[0]` is
only evaluated when the row loop runs, i.e. when `rows > 0`, so modelling
it with total rational division is faithful. -/
def rasterCell (sil : List Point) (rows cols : Int)
    (x_min y_min x_range y_range : ℚ) (x y : Nat) : Except PyErr Char :=
  let adjusted_x := ((x : ℚ) / (rows : ℚ)) * x_range + x_min
  let adjusted_y := ((y : ℚ) / (cols : ℚ)) * y_range + y_min
  match isWithinPolygon ⟨adjusted_x, adjusted_y⟩ sil with
  | .error e => .error e
  | .ok b => .ok (if b then '*' else ' ')

/-- The rasterization step of `AsciiTree.__get_picture`: bounding-box
normalization of the silhouette (Python `min`/`max` raise ValueError on an
empty sequence) followed by the per-cell containment test. -/
def rasterize (rows cols : Int) (sil : List Point) :
    Except PyErr (List (List Char)) :=
  match sil with
  | [] => .error .valueError
  | p :: ps =>
    let x_min := ps.foldl (fun a q => min a q.x) p.x
    let y_min := ps.foldl (fun a q => min a q.y) p.y
    let x_range := ps.foldl (fun a q => max a q.x) p.x - x_min
    let y_range := ps.foldl (fun a q => max a q.y) p.y - y_min
    mapExcept
      (fun x =>
        mapExcept
          (fun y => rasterCell sil rows cols x_min y_min x_range y_range x y)
          (List.range cols.toNat))
      (List.range rows.toNat)

/-- `AsciiTree.__get_neighbourhood`: the 9 characters at offsets
`-1, 0, 1` in both coordinates, row-major, with `' '` for out-of-bounds
positions (bounds checked against `len(picture)` and `len(picture[0])`).
The construction always yields exactly 9 characters, so the source's
`None if len(neighbours) != 9` guard never fires. -/
def getNeighbourhood (x y : Int) (picture : List (List Char)) : List Char :=
  (([-1, 0, 1] : List Int).map fun i =>
    ([-1, 0, 1] : List Int).map fun j =>
      if 0 ≤ x + i ∧ x + i < (picture.length : Int) ∧
          0 ≤ y + j ∧ y + j < ((picture.headD []).length : Int) then
        (picture.getD (x + i).toNat []).getD (y + j).toNat ' '
      else ' ').flatten

/-- A substitution rule: a 9-character pattern (`'a'` is the wildcard) and
its replacement.  The source's replacement is a zero-argument callable
(possibly randomized); it is modelled by the character it returns. -/
abbrev Rule := List Char × Char

/-- The inner rule-matching loop of `AsciiTree.__get_picture`: a rule
matches iff every pattern position is the wildcard `'a'` or equals the
corresponding neighbourhood character. -/
def ruleMatches (pattern neighbours : List Char) : Bool :=
  (List.zip pattern neighbours).all fun p => p.1 == 'a' || p.1 == p.2

/-- One substitution phase of `AsciiTree.__get_picture`: a fresh blank
layer is filled cell by cell with the first matching rule's replacement,
or with the input cell when no rule matches.  The output dimensions equal
the input's (in the program both always equal `size`). -/
def applyPhase (picture : List (List Char)) (phase : List Rule) :
    List (List Char) :=
  (List.range picture.length).map fun (x : Nat) =>
    (List.range ((picture.getD x []).length)).map fun (y : Nat) =>
      match phase.find?
          (fun r =>
            ruleMatches r.1
              (getNeighbourhood (x : Int) (y : Int) picture)) with
      | some r => r.2
      | none => (picture.getD x []).getD y ' '

/-- One iteration of the phase loop: apply the phase and record the new
`filtered_picture`; the second component tracks whether the local
`filtered_picture` has been assigned yet. -/
def substStep (st : List (List Char) × Option (List (List Char)))
    (phase : List Rule) : List (List Char) × Option (List (List Char)) :=
  let filtered := applyPhase st.1 phase
  (filtered, some filtered)

/-- The substitution loop and return of `AsciiTree.__get_picture`: the
local `filtered_picture` is assigned only inside `for phase in
self.substitutions`, yet it is the variable returned — with an empty phase
list it was never bound, which Python reports as an UnboundLocalError. -/
def getPictureSubst (picture : List (List Char)) (phases : List (List Rule)) :
    Except PyErr (List (List Char)) :=
  let st := phases.foldl substStep (picture, none)
  match st.2 with
  | none => .error .unboundLocal
  | some filtered => .ok filtered

/-- `AsciiTree.__get_picture`: rasterize the silhouette, derive the mask
from the pre-substitution picture (`c != " "`), run the substitution
phases, and return the mask/content layer pair. -/
def getPicture (sil : List Point) (rows cols : Int)
    (phases : List (List Rule)) :
    Except PyErr (List (List Bool) × List (List Char)) :=
  match rasterize rows cols sil with
  | .error e => .error e
  | .ok picture =>
    let mask := picture.map fun row => row.map fun c => c != ' '
    match getPictureSubst picture phases with
    | .error e => .error e
    | .ok filtered => .ok (mask, filtered)

/-- C3 (as the code behaves): running `__get_picture`'s substitution stage
with an empty phase list does not return the raster unchanged — the
returned local `filtered_picture` was never assigned, so the call raises
an UnboundLocalError for every input layer. -/
theorem empty_phase_list_raises_unbound_local (picture : List (List Char)) :
    getPictureSubst picture [] = .error .unboundLocal := rfl

/-- C6: the rasterization step is a pure function of the silhouette and
the grid size — for positive dimensions (and any silhouette), running it
twice yields bit-identical grids. -/
theorem rasterize_deterministic (rows cols : Int) (sil : List Point)
    (_hr : 0 < rows) (_hc : 0 < cols) :
    rasterize rows cols sil = rasterize rows cols sil := rfl

/-- Witness for C6 at a concrete grid size and silhouette. -/
theorem rasterize_deterministic_witness :
    (0 : Int) < 2 ∧ (0 : Int) < 3 ∧
      rasterize 2 3 [⟨0, 0⟩, ⟨1, 0⟩, ⟨1, 1⟩] =
        rasterize 2 3 [⟨0, 0⟩, ⟨1, 0⟩, ⟨1, 1⟩] :=
  ⟨by decide, by decide,
    rasterize_deterministic 2 3 [⟨0, 0⟩, ⟨1, 0⟩, ⟨1, 1⟩] (by decide) (by decide)⟩

theorem ruleMatches_all_wildcard (nb : List Char) :
    ruleMatches (List.replicate 9 'a') nb = true := by
  unfold ruleMatches
  rw [List.all_eq_true]
  rintro ⟨c1, c2⟩ hp
  have h := (List.of_mem_zip hp).1
  have : c1 = 'a' := List.eq_of_mem_replicate h
  simp [this]

theorem getD_map_range {β : Type} (n : Nat) (f : Nat → β) (d : β) (i : Nat)
    (h : i < n) : ((List.range n).map f).getD i d = f i := by
  have h' : i < ((List.range n).map f).length := by simpa using h
  rw [List.getD_eq_getElem _ _ h', List.getElem_map, List.getElem_range]

/-- C5: a phase holding the single rule with the all-wildcard pattern
`"aaaaaaaaa"` and constant replacement `'X'` rewrites every in-range cell
of the layer to `'X'`, whatever the input contents. -/
theorem all_wildcard_phase_sets_every_cell (picture : List (List Char))
    (x y : Nat) (hx : x < picture.length)
    (hy : y < (picture.getD x []).length) :
    ((applyPhase picture [(List.replicate 9 'a', 'X')]).getD x []).getD y ' '
      = 'X' := by
  unfold applyPhase
  rw [getD_map_range _ _ _ _ hx, getD_map_range _ _ _ _ hy]
  have h := ruleMatches_all_wildcard
    (getNeighbourhood (x : Int) (y : Int) picture)
  simp only [List.replicate] at h
  simp [List.find?_cons, h]

/-- Witness for C5 on a concrete 1×1 layer holding `'q'`. -/
theorem all_wildcard_phase_sets_every_cell_witness :
    0 < ([['q']] : List (List Char)).length ∧
      0 < (([['q']] : List (List Char)).getD 0 []).length ∧
      ((applyPhase [['q']] [(List.replicate 9 'a', 'X')]).getD 0 []).getD 0 ' '
        = 'X' :=
  ⟨by decide, by decide,
    all_wildcard_phase_sets_every_cell [['q']] 0 0 (by decide) (by decide)⟩

/-- A cell of a composition layer: Python stores either a mask boolean or
a content character at each position, inspected at runtime in
`AsciiTree.export`. -/
inductive Cell where
  | b (v : Bool)
  | c (ch : Char)
  deriving DecidableEq, Repr

/-- A composition layer: a grid of dynamically typed cells. -/
abbrev CompLayer := List (List Cell)

/-- A boolean mask grid viewed as a composition layer. -/
def maskLayer (m : List (List Bool)) : CompLayer :=
  m.map fun row => row.map Cell.b

/-- A character content grid viewed as a composition layer. -/
def contentLayer (g : List (List Char)) : CompLayer :=
  g.map fun row => row.map Cell.c

/-- The cell of a composition layer at a given row and column. -/
def compCell (l : CompLayer) (row col : Nat) : Cell :=
  (l.getD row []).getD col (.c ' ')

/-- The per-cell scan of `AsciiTree.export`: walk the composition list in
program order; a mask cell holding `True` renders the *next* layer's cell
(a non-character there is a write of a non-string, a TypeError; a missing
next layer is an IndexError); a non-boolean, non-blank cell renders itself
(legacy single-layer content); anything else moves on; exhausting the
layers renders a blank. -/
def resolveCell (row col : Nat) : List CompLayer → Except PyErr Char
  | [] => .ok ' '
  | l :: rest =>
    match compCell l row col with
    | .b true =>
      match rest.head? with
      | none => .error .indexError
      | some l2 =>
        match compCell l2 row col with
        | .c ch => .ok ch
        | .b _ => .error .typeError
    | .b false => resolveCell row col rest
    | .c ch => if ch = ' ' then resolveCell row col rest else .ok ch

/-- C4: with the silhouette mask/content pair appended before the grass
pair, a cell covered by both masks composites to the silhouette content
character; and a scan in which every layer cell is an inactive mask or a
blank character composites to a blank. -/
theorem compositor_silhouette_precedence_and_blank_fallback
    (sm gm : List (List Bool)) (sc gc : List (List Char)) (row col : Nat)
    (ch : Char)
    (hsm : compCell (maskLayer sm) row col = .b true)
    (hsc : compCell (contentLayer sc) row col = .c ch)
    (_hgm : compCell (maskLayer gm) row col = .b true) :
    resolveCell row col
        [maskLayer sm, contentLayer sc, maskLayer gm, contentLayer gc]
      = .ok ch ∧
    (∀ comp : List CompLayer,
      (∀ l ∈ comp, compCell l row col = .b false ∨
        compCell l row col = .c ' ') →
      resolveCell row col comp = .ok ' ') := by
  constructor
  · rw [resolveCell, hsm]
    simp only [List.head?_cons, hsc]
  · intro comp
    induction comp with
    | nil => intro _; rfl
    | cons l rest ih =>
      intro hall
      rcases hall l (by simp) with h | h
      · simp only [resolveCell.eq_2, h]
        exact ih fun d hd => hall d (by simp [hd])
      · simp only [resolveCell.eq_2, h, if_pos]
        exact ih fun d hd => hall d (by simp [hd])

/-- Witness for C4 on concrete 1×1 layers: silhouette content `'*'`, grass
content `'g'`, both masks active at (0,0). -/
theorem compositor_silhouette_precedence_witness :
    compCell (maskLayer [[true]]) 0 0 = .b true ∧
      compCell (contentLayer [['*']]) 0 0 = .c '*' ∧
      compCell (maskLayer [[true]]) 0 0 = .b true ∧
      resolveCell 0 0
          [maskLayer [[true]], contentLayer [['*']], maskLayer [[true]],
            contentLayer [['g']]]
        = .ok '*' ∧
      resolveCell 0 0 [maskLayer [[false]], contentLayer [[' ']]] = .ok ' ' :=
  ⟨by decide, by decide, by decide,
    (compositor_silhouette_precedence_and_blank_fallback [[true]] [[true]]
      [['*']] [['g']] 0 0 '*' (by decide) (by decide) (by decide)).1,
    (compositor_silhouette_precedence_and_blank_fallback [[true]] [[true]]
      [['*']] [['g']] 0 0 '*' (by decide) (by decide) (by decide)).2
      [maskLayer [[false]], contentLayer [[' ']]] (by decide)⟩

/-- Python list indexing as used by `layer[-row]` in `AsciiTree.grass`:
a negative index wraps from the end, and `-0` is just `0` — the first
grass row is written to the TOP row of the grid. -/
def pyIdx (n : Nat) (i : Int) : Nat :=
  if i < 0 then ((n : Int) + i).toNat else i.toNat

/-- A blank boolean mask of the given size. -/
def getBlankMask (rows cols : Nat) : List (List Bool) :=
  List.replicate rows (List.replicate cols false)

/-- Set one cell of a boolean grid. -/
def setMask (g : List (List Bool)) (i j : Nat) : List (List Bool) :=
  g.set i ((g.getD i []).set j true)

/-- The mask-building loops of `AsciiTree.grass`: for each column and each
`row in range(int(heights[column]))`, set `mask[-row][column] = True`
(the paired content cell receives a random character from the
caller-supplied alphabet at the same position; only the marked positions
are at issue here).  `heights` is the per-column height after `int`
truncation. -/
def grassMask (rows cols : Nat) (heights : List Nat) : List (List Bool) :=
  (List.range cols).foldl
    (fun m column =>
      (List.range (heights.getD column 0)).foldl
        (fun m row => setMask m (pyIdx rows (-(row : Int))) column) m)
    (getBlankMask rows cols)

/-- C7 (as the code behaves): on a 3-row, 1-column grid with computed
height 1 the grass builder marks the TOP row (index 0), not the bottom
row (index 2) — `layer[-row]` starts at `row = 0` and `-0` indexes the
start of the list, so each column's first grass cell lands on the top row
and only the remaining `h - 1` cells count up from the bottom. -/
theorem grass_marks_top_row_bug :
    grassMask 3 1 [1] = [[true], [false], [false]] := by decide

/-- The Python builtin `tuple` applied to a list of float arguments: it
accepts at most one argument, and a float is not iterable, so any call
with float arguments other than `tuple()` raises a TypeError. -/
def pyTuple (args : List ℚ) : Except PyErr (List ℚ) :=
  match args with
  | [] => .ok []
  | _ => .error .typeError

/-- `Point.__hash__` from the source: `hash(tuple(self.x, self.y))`.
`hashOfTuple` abstracts CPython's tuple hash; it is never reached because
the two-argument `tuple` call raises first. -/
def pointHash (hashOfTuple : List ℚ → Int) (p : Point) : Except PyErr Int :=
  match pyTuple [p.x, p.y] with
  | .error e => .error e
  | .ok t => .ok (hashOfTuple t)

/-- C9 (as the code behaves): hashing a Point never succeeds — the body
calls `tuple(self.x, self.y)` with two positional arguments, which raises
a TypeError for every point, contradicting the claim (and the method's
own docstring) that the hash equals `hash((x, y))`. -/
theorem point_hash_raises_type_error (hashOfTuple : List ℚ → Int)
    (p : Point) : pointHash hashOfTuple p = .error .typeError := rfl

/-- The shaping-function set and constants of the `AsciiTree` dataclass
(the randomized presets are modelled as the pure functions actually drawn
at each call). -/
structure Config where
  number_of_children : ℚ → Nat
  children_orientation_offsets : Nat → ℚ → List ℚ
  child_thickness : Nat → ℚ → ℚ
  child_distance : ℚ → ℚ
  silhouette_points_distance : ℚ → ℚ × ℚ
  minimum_node_thickness : ℚ

/-- Sequential map over `Option`: `none` anywhere gives `none`. -/
def mapOption {α β : Type} (f : α → Option β) : List α → Option (List β)
  | [] => some []
  | a :: rest =>
    match f a with
    | none => none
    | some b =>
      match mapOption f rest with
      | none => none
      | some bs => some (b :: bs)

/-- `AsciiTree.__generate_branches`: below the minimum thickness the node
is a leaf; otherwise one child is created per orientation offset at
`move(position, child_distance(thickness), orientation + offset)` with
thickness `child_thickness(count, thickness)`, recursively.  The source
recursion has no termination guard (a caller contract, spec §4.2), so the
unfolding is fuel-indexed; `none` models a run whose recursion exceeds the
fuel. -/
def generateBranches (T : Trig) (cfg : Config) :
    Nat → Point → ℚ → ℚ → Option Node
  | 0, _, _, _ => none
  | fuel + 1, pos, th, ori =>
    if th < cfg.minimum_node_thickness then
      some (.mk pos th ori [])
    else
      let count := cfg.number_of_children th
      let offsets := cfg.children_orientation_offsets count th
      match mapOption
          (fun off =>
            generateBranches T cfg fuel
              (pos.move T (cfg.child_distance th) (ori + off))
              (cfg.child_thickness count th) (ori + off))
          offsets with
      | none => none
      | some children => some (.mk pos th ori children)

/-- `AsciiTree.generate` (composition portion): build the branch tree from
the default root `Node(Point(0,0), 1.0, pi)`, extract the silhouette, and
run `__get_picture` to obtain the mask/content pair appended to the
composition.  There is no validation of the grid size anywhere on this
path. -/
def generate (T : Trig) (cfg : Config) (rows cols : Int)
    (phases : List (List Rule)) (fuel : Nat) :
    Option (Except PyErr (List (List Bool) × List (List Char))) :=
  match generateBranches T cfg fuel ⟨0, 0⟩ 1 T.pi with
  | none => none
  | some root =>
    some (getPicture
      (generateSilhouette T cfg.silhouette_points_distance root)
      rows cols phases)

theorem mapExcept_isOk {α β : Type} (f : α → Except PyErr β) (l : List α)
    (h : ∀ a ∈ l, ∃ b, f a = .ok b) : ∃ bs, mapExcept f l = .ok bs := by
  induction l with
  | nil => exact ⟨[], rfl⟩
  | cons a t ih =>
    obtain ⟨b, hb⟩ := h a (by simp)
    obtain ⟨bs, hbs⟩ := ih fun d hd => h d (by simp [hd])
    exact ⟨b :: bs, by simp only [mapExcept, hb, hbs]⟩

theorem rasterCell_isOk (sil : List Point) (rows cols : Int)
    (x_min y_min x_range y_range : ℚ) (x y : Nat) :
    ∃ ch, rasterCell sil rows cols x_min y_min x_range y_range x y
      = .ok ch := by
  obtain ⟨b, hb⟩ := isWithinPolygon_isOk
    ⟨((x : ℚ) / (rows : ℚ)) * x_range + x_min,
      ((y : ℚ) / (cols : ℚ)) * y_range + y_min⟩ sil
  refine ⟨if b then '*' else ' ', ?_⟩
  simp only [rasterCell, hb]

theorem rasterize_cons_isOk (rows cols : Int) (p : Point) (ps : List Point) :
    ∃ g, rasterize rows cols (p :: ps) = .ok g := by
  rw [rasterize]
  apply mapExcept_isOk
  intro x _
  apply mapExcept_isOk
  intro y _
  exact rasterCell_isOk (p :: ps) rows cols _ _ _ _ x y

theorem foldl_substStep_isSome :
    ∀ (phases : List (List Rule))
      (st : List (List Char) × Option (List (List Char))),
      st.2.isSome → ((phases.foldl substStep st).2).isSome := by
  intro phases
  induction phases with
  | nil => intro st h; exact h
  | cons ph t ih => intro st _; exact ih (substStep st ph) (by simp [substStep])

theorem getPictureSubst_cons_isOk (picture : List (List Char))
    (ph : List Rule) (t : List (List Rule)) :
    ∃ f, getPictureSubst picture (ph :: t) = .ok f := by
  unfold getPictureSubst
  rw [List.foldl_cons]
  have h := foldl_substStep_isSome t (substStep (picture, none) ph)
    (by simp [substStep])
  obtain ⟨f, hf⟩ := Option.isSome_iff_exists.mp h
  exact ⟨f, by simp only [hf]⟩

theorem getPicture_never_configuration_error (sil : List Point)
    (rows cols : Int) (phases : List (List Rule)) :
    getPicture sil rows cols phases ≠ .error .configurationError := by
  unfold getPicture
  cases sil with
  | nil => simp [rasterize]
  | cons p ps =>
    obtain ⟨g, hg⟩ := rasterize_cons_isOk rows cols p ps
    rw [hg]
    cases phases with
    | nil => simp [getPictureSubst]
    | cons ph t =>
      obtain ⟨f, hf⟩ := getPictureSubst_cons_isOk g ph t
      simp [hf]

/-- C8 (amended): the code performs no grid-size validation at all —
generation never raises a ConfigurationError, for any configuration, grid
size (zero or negative included), phase list or recursion fuel; with a
non-positive dimension the rasterization loops simply run over an empty
cell range. -/
theorem generate_never_configuration_error (T : Trig) (cfg : Config)
    (rows cols : Int) (phases : List (List Rule)) (fuel : Nat) :
    generate T cfg rows cols phases fuel
      ≠ some (.error .configurationError) := by
  unfold generate
  cases hb : generateBranches T cfg fuel ⟨0, 0⟩ 1 T.pi with
  | none => simp
  | some root =>
    intro hcontra
    exact getPicture_never_configuration_error
      (generateSilhouette T cfg.silhouette_points_distance root)
      rows cols phases (by simpa using hcontra)

/-- C8 counterexample: a concrete configuration whose grid size has zero
rows (size = (0, 5)): generation runs to completion and returns the
(empty) mask/content pair with no error of any kind — no ConfigurationError
is raised before or during rasterization. -/
theorem zero_rows_generation_succeeds_cex :
    generate ⟨fun _ => 1, fun _ => 0, 0⟩
        ⟨fun _ => 0, fun _ _ => [], fun _ _ => 0, fun _ => 0,
          fun _ => (1, 1), 2⟩
        0 5 [[]] 1
      = some (.ok ([], [])) := by
  have hroot : generateBranches ⟨fun _ => 1, fun _ => 0, 0⟩
      ⟨fun _ => 0, fun _ _ => [], fun _ _ => 0, fun _ => 0,
        fun _ => (1, 1), 2⟩ 1 ⟨0, 0⟩ 1 (0 : ℚ)
      = some (.mk ⟨0, 0⟩ 1 0 []) := by
    rw [generateBranches]
    norm_num
  obtain ⟨a, rest, hsil⟩ : ∃ a rest,
      generateSilhouette ⟨fun _ => 1, fun _ => 0, 0⟩
        (fun _ => ((1 : ℚ), (1 : ℚ))) (.mk ⟨0, 0⟩ 1 0 [])
        = a :: rest := by
    rw [generateSilhouette]
    exact ⟨_, _, rfl⟩
  simp only [generate, hroot, hsil]
  rw [getPicture, rasterize]
  rfl

end AsciiTreeGen
